import Mathlib

/-!
Shallow embedding of the container/service reconciliation core of
`pkg/commands/docker.go`: the container registry merge (`GetContainers`),
service assignment (`assignContainersToServices`), standalone-container
derivation (`obtainStandaloneContainers`), the display pipeline
(`filterOutExited`, `filterOutIgnoredContainers`, `sortedContainers`),
the per-container stats monitor (`createClientStatMonitor`), and the
service discovery parsing (`GetServices`), together with theorems settling
the specification claims about them.
-/

namespace LazyDocker

/-- Modelled from the spec: `RecordedStats` (one timestamped sample with
derived CPU and memory percentages).  The raw sample fields are elided:
no claim treated here inspects the content of a sample, only the history
sequence they are appended to. -/
structure RecordedStats where
  cpuPercentage : Int
  memoryPercentage : Int
  recordedAt : Nat
  deriving DecidableEq, Repr

/-- The runtime API's container summary as consumed by `GetContainers`:
its `ID`, its label map (modelled as an association list), its system
names and its `State` string.  Only the fields `docker.go` reads are
included. -/
structure ContainerSummary where
  ID : String
  Labels : List (String × String)
  Names : List String
  State : String
  deriving DecidableEq, Repr

/-- Go map lookup on the label map: a missing key yields the zero value
`""`, as in `container.Labels["com.docker.compose.service"]`. -/
def lookupLabel (labels : List (String × String)) (key : String) : String :=
  (labels.lookup key).getD ""

/-- The `Container` struct, restricted to the fields `docker.go` reads or
writes.  The raw runtime snapshot stored in the Go field `Container` is
kept in `Summary`; `MonitoringStats` and `StatsHistory` are the
owned state the refresh must preserve. -/
structure Container where
  ID : String
  Name : String
  ServiceName : String
  ProjectName : String
  ContainerNumber : String
  OneOff : Bool
  Summary : ContainerSummary
  MonitoringStats : Bool
  StatsHistory : List RecordedStats
  deriving DecidableEq, Repr

/-- The runtime state string of the stored snapshot, Go's
`container.Container.State`. -/
def Container.State (c : Container) : String := c.Summary.State

/-- The `Service` struct, restricted to the fields `docker.go` reads or
writes: `Name`, `ID`, and the assigned `Container` reference (or none). -/
structure Service where
  Name : String
  ID : String
  Container : Option Container
  deriving DecidableEq, Repr

/-- Go's `strings.TrimLeft(s, "/")`: strip every leading slash. -/
def trimLeadingSlashes (s : String) : String :=
  String.mk (s.toList.dropWhile (fun ch => ch = '/'))

/-- The display-name computation of `GetContainers`: a `name` label is
used verbatim, otherwise the first system name with leading slashes
stripped.  Go indexes `container.Names[0]`, which would crash on an
empty `Names` slice; that path decides no claim here, so the model reads
the head with default `""`. -/
def displayName (summary : ContainerSummary) : String :=
  match summary.Labels.lookup "name" with
  | some n => n
  | none => trimLeadingSlashes (summary.Names.headD "")

/-- The body of the `GetContainers` loop for one fetched summary: look up
an existing container with the same ID (first match, as the Go inner loop
breaks at the first hit), else construct a fresh one with
`MonitoringStats = false` and empty history; then overwrite every
runtime-observed attribute on the (reused or new) object. -/
def refreshedContainer (existing : List Container) (summary : ContainerSummary) : Container :=
  let base : Container :=
    match existing.find? (fun e => e.ID == summary.ID) with
    | some e => e
    | none =>
      { ID := summary.ID
        Name := ""
        ServiceName := ""
        ProjectName := ""
        ContainerNumber := ""
        OneOff := false
        Summary := { ID := "", Labels := [], Names := [], State := "" }
        MonitoringStats := false
        StatsHistory := [] }
  { base with
    Summary := summary
    Name := displayName summary
    ServiceName := lookupLabel summary.Labels "com.docker.compose.service"
    ProjectName := lookupLabel summary.Labels "com.docker.compose.project"
    ContainerNumber := lookupLabel summary.Labels "com.docker.compose.container"
    OneOff := lookupLabel summary.Labels "com.docker.compose.oneoff" == "True" }

/-- `GetContainers`: merge the freshly fetched list against the
previously held set, position by position in the fetched order. -/
def getContainers (existing : List Container) (fetched : List ContainerSummary) :
    List Container :=
  fetched.map (refreshedContainer existing)

/-- The match predicate of `assignContainersToServices`:
`!container.OneOff && container.ServiceName == service.Name`. -/
def serviceMatch (s : Service) (c : Container) : Bool :=
  !c.OneOff && c.ServiceName == s.Name

/-- `assignContainersToServices`: each service gets the first container
in list order satisfying `serviceMatch`, or `none` when no container
does (the Go loop sets `service.Container = nil` after an unmatched
scan). -/
def assignContainersToServices (containers : List Container) (services : List Service) :
    List Service :=
  services.map (fun s => { s with Container := containers.find? (serviceMatch s) })

/-- `filterOutExited`: when `ShowExited` holds the input is returned as
is; otherwise every container whose state is exactly `"exited"` is
dropped. -/
def filterOutExited (showExited : Bool) (containers : List Container) : List Container :=
  if showExited then containers
  else containers.filter (fun c => !(c.State == "exited"))

/-- Go's `strings.Contains(s, sub)`: case-sensitive substring test,
modelled on the character lists. -/
def containsStr (s sub : String) : Bool :=
  decide (sub.toList <:+: s.toList)

/-- `filterOutIgnoredContainers`: keep the containers whose display name
contains no entry of the configured ignore list as a substring. -/
def filterOutIgnoredContainers (ignore : List String) (containers : List Container) :
    List Container :=
  containers.filter (fun c => !(ignore.any (fun ig => containsStr c.Name ig)))

/-- The state rank of `sortedContainers`: the Go map
`{running: 1, exited: 2, created: 3}`, any other state yielding the zero
value `0`. -/
def stateRank (state : String) : Nat :=
  if state == "running" then 1
  else if state == "exited" then 2
  else if state == "created" then 3
  else 0

/-- The non-strict comparison the sort establishes: the negation, with
arguments swapped, of the strict `less` closure passed to `sort.Slice`
(rank ascending, ties by display name ascending). -/
def containerLE (a b : Container) : Bool :=
  if stateRank a.State = stateRank b.State then !(decide (b.Name < a.Name))
  else decide (stateRank a.State < stateRank b.State)

/-- `sortedContainers`: in legacy mode the list is passed through
untouched; otherwise it is sorted by the `less` closure of `sort.Slice`
(state rank ascending, ties by name ascending).  `sort.Slice` leaves the
relative order of elements comparing equal under `less` unspecified;
`mergeSort` realises one valid outcome, and the claims proved below only
concern the properties every valid outcome shares (element permutation
and pairwise order under `containerLE`). -/
def sortedContainers (legacy : Bool) (containers : List Container) : List Container :=
  if legacy then containers else containers.mergeSort containerLE

/-- `filterOutExited` with its frame: the second component is the content
of the caller's slice after the call (the function only reads its
input). -/
def filterOutExitedEffect (showExited : Bool) (containers : List Container) :
    List Container × List Container :=
  (filterOutExited showExited containers, containers)

/-- `filterOutIgnoredContainers` with its frame: `lo.Filter` builds a
fresh slice, leaving the input unchanged. -/
def filterOutIgnoredEffect (ignore : List String) (containers : List Container) :
    List Container × List Container :=
  (filterOutIgnoredContainers ignore containers, containers)

/-- `sortedContainers` with its frame: `sort.Slice` permutes the caller's
slice in place through the shared backing array, so after the call the
input slice holds exactly the returned (sorted) order; in legacy mode
nothing is touched. -/
def sortedContainersEffect (legacy : Bool) (containers : List Container) :
    List Container × List Container :=
  (sortedContainers legacy containers, sortedContainers legacy containers)

/-- The skip test of `obtainStandaloneContainers`: a container is kept
(standalone) unless some service witnesses
`!OneOff && ServiceName != "" && ServiceName == service.Name`. -/
def standaloneKeep (services : List Service) (c : Container) : Bool :=
  !(services.any (fun s => !c.OneOff && !(c.ServiceName == "") && c.ServiceName == s.Name))

/-- `obtainStandaloneContainers`: the containers not backed by any
service of the given set, in input order. -/
def obtainStandaloneContainers (containers : List Container) (services : List Service) :
    List Container :=
  containers.filter (standaloneKeep services)

/-- The spec's wording of the standalone condition, for comparison with
the code's filter: one-off, or empty service name, or no service of the
set carries that exact name. -/
def standaloneSpecB (services : List Service) (c : Container) : Bool :=
  c.OneOff || c.ServiceName == "" || services.all (fun s => !(c.ServiceName == s.Name))

/-- A container is assigned by `assignContainersToServices` when some
post-assignment service references it. -/
def isAssigned (containers : List Container) (services : List Service) (c : Container) :
    Prop :=
  ∃ s ∈ assignContainersToServices containers services, s.Container = some c

instance (containers : List Container) (services : List Service) (c : Container) :
    Decidable (isAssigned containers services c) := by
  unfold isAssigned; infer_instance

/-- Modelled from the spec: `Container.appendStats` (the recorder appends
each sample to the container's history; the method body lives outside the
provided source). -/
def Container.appendStats (c : Container) (r : RecordedStats) : Container :=
  { c with StatsHistory := c.StatsHistory ++ [r] }

/-- The observable steps of one stats monitor: writes to the
`MonitoringStats` flag, the blocking stream-open call, and one scanned
sample. -/
inductive MonitorEvent where
  | setFlag (value : Bool)
  | openStream
  | readSample
  deriving DecidableEq, Repr

/-- `createClientStatMonitor` for one container, as a function of the
stream-open outcome: `none` is an open error, `some samples` is a stream
delivering the given already-decoded samples and then terminating (EOF or
read error — the scan loop exits either way).  The result is the
container's final state together with the ordered trace of monitor
events. -/
def createClientStatMonitor (openResult : Option (List RecordedStats)) (c : Container) :
    Container × List MonitorEvent :=
  match openResult with
  | none =>
    ({ c with MonitoringStats := false },
      [MonitorEvent.setFlag true, MonitorEvent.openStream, MonitorEvent.setFlag false])
  | some samples =>
    ({ c with MonitoringStats := false, StatsHistory := c.StatsHistory ++ samples },
      [MonitorEvent.setFlag true, MonitorEvent.openStream]
        ++ samples.map (fun _ => MonitorEvent.readSample)
        ++ [MonitorEvent.setFlag false])

/-- Go's `strings.Split(s, " ")` on the character list: split around
every single space, keeping empty fields. -/
def splitSpaces : List Char → List (List Char)
  | [] => [[]]
  | ch :: rest =>
    if ch = ' ' then [] :: splitSpaces rest
    else
      match splitSpaces rest with
      | [] => [[ch]]
      | w :: ws => (ch :: w) :: ws

/-- One line of the `GetServices` loop body: `arr[0]` is the service
name, `arr[1]` the id.  `arr[1]` is an unchecked index: a line with no
space makes `strings.Split` return a single field and the access crash,
modelled by `none`. -/
def parseServiceLine (line : String) : Option Service :=
  if h : 2 ≤ (splitSpaces line.toList).length then
    some
      { Name := String.mk ((splitSpaces line.toList).get ⟨0, by omega⟩)
        ID := String.mk ((splitSpaces line.toList).get ⟨1, h⟩)
        Container := none }
  else none

/-- The `GetServices` parsing loop over the output lines: the first line
without a space crashes the whole call (`none`). -/
def getServicesParse (lines : List String) : Option (List Service) :=
  match lines with
  | [] => some []
  | line :: rest =>
    match parseServiceLine line, getServicesParse rest with
    | some s, some ss => some (s :: ss)
    | _, _ => none

/-- Outcome of `GetServices`: a service list, a propagated command error,
or a crash of the index `arr[1]`. -/
inductive ServicesResult where
  | ok (services : List Service)
  | err (message : String)
  | crash
  deriving DecidableEq, Repr

/-- `GetServices`: outside of a compose project it returns the nil
(empty) list with no error; otherwise the compose-config command is run
(its outcome, already split into lines, is the `cmdResult` argument) and
a command error is propagated, else the output lines are parsed. -/
def getServices (inCompose : Bool) (cmdResult : Except String (List String)) :
    ServicesResult :=
  if !inCompose then ServicesResult.ok []
  else
    match cmdResult with
    | Except.error e => ServicesResult.err e
    | Except.ok lines =>
      match getServicesParse lines with
      | some services => ServicesResult.ok services
      | none => ServicesResult.crash

/-- Outcome of `RefreshContainersAndServices`: the display list, the
service list and the full merged container list, or an error, or a crash
inherited from `GetServices`. -/
inductive RefreshResult where
  | ok (display : List Container) (services : List Service) (containers : List Container)
  | err (message : String)
  | crash
  deriving DecidableEq, Repr

/-- `RefreshContainersAndServices`: merge the fetched containers, take
the cached services when given else call `GetServices`, assign
containers to services, derive the display list (standalone containers
unless every container is shown), then run the exited filter, the ignore
filter and the sort. -/
def refreshContainersAndServices
    (existing : List Container)
    (fetchResult : Except String (List ContainerSummary))
    (currentServices : Option (List Service))
    (inCompose : Bool)
    (cmdResult : Except String (List String))
    (showAll legacy showExited : Bool)
    (ignore : List String) : RefreshResult :=
  match fetchResult with
  | Except.error e => RefreshResult.err e
  | Except.ok fetched =>
    let containers := getContainers existing fetched
    let servicesResult :=
      match currentServices with
      | some s => ServicesResult.ok s
      | none => getServices inCompose cmdResult
    match servicesResult with
    | ServicesResult.err e => RefreshResult.err e
    | ServicesResult.crash => RefreshResult.crash
    | ServicesResult.ok services =>
      let services := assignContainersToServices containers services
      let displayContainers :=
        if !showAll then obtainStandaloneContainers containers services else containers
      let afterExited := filterOutExited showExited displayContainers
      let afterIgnore := filterOutIgnoredContainers ignore afterExited
      let display := sortedContainers legacy afterIgnore
      RefreshResult.ok display services containers

/-! ### Helper lemmas -/

theorem find?_first_of_eq_some {α : Type _} {p : α → Bool} {l : List α} {c : α}
    (h : l.find? p = some c) :
    p c = true ∧ ∃ k : Fin l.length, l.get k = c ∧
      ∀ j : Fin l.length, j.1 < k.1 → p (l.get j) = false := by
  induction l with
  | nil => simp at h
  | cons a t ih =>
    by_cases hpa : p a = true
    · rw [List.find?_cons_of_pos _ hpa] at h
      cases h
      exact ⟨hpa, ⟨0, by simp⟩, rfl, fun j hj => absurd hj (Nat.not_lt_zero j.1)⟩
    · rw [List.find?_cons_of_neg _ hpa] at h
      obtain ⟨hpc, k, hk, hprev⟩ := ih h
      refine ⟨hpc, ⟨k.1 + 1, Nat.succ_lt_succ k.2⟩, hk, ?_⟩
      intro j hj
      match j, hj with
      | ⟨0, h0⟩, _ => exact Bool.eq_false_iff.mpr (fun hcontra => hpa hcontra)
      | ⟨m + 1, hm⟩, hj =>
        exact hprev ⟨m, by simpa using hm⟩ (by simpa using hj)

theorem eq_of_mem_of_length_le_one {α : Type _} {l : List α} (h : l.length ≤ 1)
    {a b : α} (ha : a ∈ l) (hb : b ∈ l) : a = b := by
  match l with
  | [] => cases ha
  | [x] =>
    rw [List.mem_singleton] at ha hb
    rw [ha, hb]
  | x :: y :: t => simp at h

/-! ### C1: identity preservation across a refresh -/

/-- Claim C1: for a fetched entry whose ID matches a previously held
container (first match, as in the Go lookup loop), `GetContainers` reuses
that object: the post-refresh stats history equals (hence is at least as
long as) the pre-refresh one and the `MonitoringStats` flag is unchanged;
a fetched entry with no previously held object of the same ID yields a
container with `MonitoringStats = false` and empty history. -/
theorem getContainers_preserves_identity
    (existing : List Container) (fetched : List ContainerSummary)
    (i : Nat) (hi : i < fetched.length)
    (ho : i < (getContainers existing fetched).length) :
    (∀ e, existing.find? (fun x => x.ID == (fetched.get ⟨i, hi⟩).ID) = some e →
        ((getContainers existing fetched).get ⟨i, ho⟩).StatsHistory = e.StatsHistory ∧
        e.StatsHistory.length ≤
          ((getContainers existing fetched).get ⟨i, ho⟩).StatsHistory.length ∧
        ((getContainers existing fetched).get ⟨i, ho⟩).MonitoringStats =
          e.MonitoringStats) ∧
    (existing.find? (fun x => x.ID == (fetched.get ⟨i, hi⟩).ID) = none →
        ((getContainers existing fetched).get ⟨i, ho⟩).MonitoringStats = false ∧
        ((getContainers existing fetched).get ⟨i, ho⟩).StatsHistory = []) := by
  have hmap : (getContainers existing fetched).get ⟨i, ho⟩
      = refreshedContainer existing (fetched.get ⟨i, hi⟩) := by
    simp [getContainers]
  rw [hmap]
  constructor
  · intro e he
    simp only [List.get_eq_getElem] at he
    simp [refreshedContainer, he]
  · intro he
    simp only [List.get_eq_getElem] at he
    simp [refreshedContainer, he]

def sampleStat : RecordedStats :=
  { cpuPercentage := 12, memoryPercentage := 34, recordedAt := 5 }

def summaryX : ContainerSummary :=
  { ID := "x", Labels := [], Names := ["/web"], State := "running" }

def containerX : Container :=
  { ID := "x", Name := "web", ServiceName := "", ProjectName := "", ContainerNumber := ""
    OneOff := false, Summary := summaryX, MonitoringStats := true
    StatsHistory := [sampleStat] }

theorem getContainers_preserves_identity_witness :
    ((getContainers [containerX] [summaryX]).get ⟨0, by decide⟩).StatsHistory =
        containerX.StatsHistory ∧
    containerX.StatsHistory.length ≤
        ((getContainers [containerX] [summaryX]).get ⟨0, by decide⟩).StatsHistory.length ∧
    ((getContainers [containerX] [summaryX]).get ⟨0, by decide⟩).MonitoringStats =
        containerX.MonitoringStats :=
  (getContainers_preserves_identity [containerX] [summaryX] 0 (by decide) (by decide)).1
    containerX (by decide)

/-! ### C2: service assignment takes the first matching container -/

/-- Claim C2: after `assignContainersToServices`, each service (whose
`Name` is untouched) references the first container in list order that is
not one-off and has `ServiceName` equal to the service's `Name`; when no
container matches, the reference is cleared to `none`.  Hence at most one
container is referenced per service, and any referenced container is not
one-off with the matching `ServiceName`. -/
theorem assignContainersToServices_first_match
    (containers : List Container) (services : List Service)
    (i : Nat) (hi : i < services.length)
    (ho : i < (assignContainersToServices containers services).length) :
    ((assignContainersToServices containers services).get ⟨i, ho⟩).Name =
        (services.get ⟨i, hi⟩).Name ∧
    (∀ c, ((assignContainersToServices containers services).get ⟨i, ho⟩).Container =
          some c →
        c.OneOff = false ∧ c.ServiceName = (services.get ⟨i, hi⟩).Name ∧
        ∃ k : Fin containers.length, containers.get k = c ∧
          ∀ j : Fin containers.length, j.1 < k.1 →
            serviceMatch (services.get ⟨i, hi⟩) (containers.get j) = false) ∧
    (((assignContainersToServices containers services).get ⟨i, ho⟩).Container = none →
        ∀ c ∈ containers, serviceMatch (services.get ⟨i, hi⟩) c = false) := by
  have hmap : (assignContainersToServices containers services).get ⟨i, ho⟩
      = { services.get ⟨i, hi⟩ with
          Container := containers.find? (serviceMatch (services.get ⟨i, hi⟩)) } := by
    simp [assignContainersToServices]
  rw [hmap]
  refine ⟨rfl, ?_, ?_⟩
  · intro c hc
    simp only at hc
    obtain ⟨hpred, k, hk, hprev⟩ := find?_first_of_eq_some hc
    have hdecoded : c.OneOff = false ∧ c.ServiceName = (services.get ⟨i, hi⟩).Name := by
      simpa [serviceMatch] using hpred
    exact ⟨hdecoded.1, hdecoded.2, k, hk, hprev⟩
  · intro hnone c hcmem
    simp only at hnone
    have := List.find?_eq_none.mp hnone c hcmem
    exact Bool.eq_false_iff.mpr this

def serviceWeb : Service := { Name := "web", ID := "hashweb", Container := none }

def containerWeb : Container :=
  { ID := "1", Name := "a", ServiceName := "web", ProjectName := "", ContainerNumber := ""
    OneOff := false, Summary := { ID := "1", Labels := [], Names := ["/a"], State := "running" }
    MonitoringStats := false, StatsHistory := [] }

theorem assignContainersToServices_first_match_witness :
    containerWeb.OneOff = false ∧ containerWeb.ServiceName = ([serviceWeb].get ⟨0, by decide⟩).Name ∧
    ∃ k : Fin ([containerWeb].length), [containerWeb].get k = containerWeb ∧
      ∀ j : Fin ([containerWeb].length), j.1 < k.1 →
        serviceMatch ([serviceWeb].get ⟨0, by decide⟩) ([containerWeb].get j) = false :=
  (assignContainersToServices_first_match [containerWeb] [serviceWeb] 0 (by decide)
      (by decide)).2.1 containerWeb (by decide)

/-! ### C3: characterisation of the standalone containers -/

/-- Claim C3: `obtainStandaloneContainers` returns, in input order,
exactly the containers that are one-off, or have an empty `ServiceName`,
or whose `ServiceName` equals no service's `Name` (the filter by the
spec's wording, `standaloneSpecB`); in particular a one-off container is
always standalone and is never referenced by any service after
`assignContainersToServices`. -/
theorem obtainStandaloneContainers_spec (containers : List Container)
    (services : List Service) :
    obtainStandaloneContainers containers services =
        containers.filter (standaloneSpecB services) ∧
    (∀ c ∈ containers, c.OneOff = true → c.ServiceName = "" →
        c ∈ obtainStandaloneContainers containers services) ∧
    (∀ c, c.OneOff = true →
        ∀ s ∈ assignContainersToServices containers services, s.Container ≠ some c) := by
  have hpt : ∀ c ∈ containers, standaloneKeep services c = standaloneSpecB services c := by
    intro c _
    unfold standaloneKeep standaloneSpecB
    cases hOne : c.OneOff with
    | true => simp [hOne]
    | false =>
      cases hSN : c.ServiceName == "" with
      | true => simp [hOne, hSN]
      | false => simp [hOne, hSN, List.not_any_eq_all_not]
  refine ⟨List.filter_congr hpt, ?_, ?_⟩
  · intro c hc hOne _
    unfold obtainStandaloneContainers
    rw [List.mem_filter]
    exact ⟨hc, by simp [standaloneKeep, hOne]⟩
  · intro c hOne s hs hcontra
    unfold assignContainersToServices at hs
    rw [List.mem_map] at hs
    obtain ⟨s₀, _, rfl⟩ := hs
    simp only at hcontra
    have hmatch := List.find?_some hcontra
    simp [serviceMatch, hOne] at hmatch

def containerOneOff : Container :=
  { ID := "9", Name := "tmp", ServiceName := "", ProjectName := "", ContainerNumber := ""
    OneOff := true, Summary := { ID := "9", Labels := [], Names := ["/tmp1"], State := "created" }
    MonitoringStats := false, StatsHistory := [] }

theorem obtainStandaloneContainers_spec_witness :
    containerOneOff ∈ obtainStandaloneContainers [containerOneOff] [serviceWeb] :=
  (obtainStandaloneContainers_spec [containerOneOff] [serviceWeb]).2.1 containerOneOff
    (by decide) (by decide) (by decide)

/-! ### C4: assigned and standalone containers do not partition the set -/

/-- Claim C4 as stated is false: with two non-one-off containers sharing
`ServiceName = "web"` and a single service `web`, the first container is
assigned, and the second is neither assigned (only the first match is)
nor standalone (a service named `web` exists), so the union of the two
sets misses it. -/
def containerWebB : Container :=
  { ID := "2", Name := "b", ServiceName := "web", ProjectName := "", ContainerNumber := ""
    OneOff := false, Summary := { ID := "2", Labels := [], Names := ["/b"], State := "running" }
    MonitoringStats := false, StatsHistory := [] }

theorem assigned_standalone_not_exhaustive :
    ¬ (isAssigned [containerWeb, containerWebB] [serviceWeb] containerWebB ∨
        containerWebB ∈ obtainStandaloneContainers [containerWeb, containerWebB] [serviceWeb]) := by
  decide

/-- Claim C4, amended: provided every service has a nonempty `Name` and
at most one container of the list matches each service, the containers
assigned to some service and the standalone containers are disjoint and
their union covers the whole input list (each member is in exactly one of
the two sets). -/
theorem assigned_standalone_partition
    (containers : List Container) (services : List Service)
    (hname : ∀ s ∈ services, s.Name ≠ "")
    (huniq : ∀ s ∈ services, (containers.filter (serviceMatch s)).length ≤ 1)
    (c : Container) (hc : c ∈ containers) :
    (¬ (isAssigned containers services c ∧
        c ∈ obtainStandaloneContainers containers services)) ∧
    (isAssigned containers services c ∨
        c ∈ obtainStandaloneContainers containers services) := by
  have hassigned_iff : isAssigned containers services c ↔
      ∃ s ∈ services, containers.find? (serviceMatch s) = some c := by
    unfold isAssigned assignContainersToServices
    constructor
    · rintro ⟨s, hs, hcont⟩
      rw [List.mem_map] at hs
      obtain ⟨s₀, hs₀, rfl⟩ := hs
      simp only at hcont
      exact ⟨s₀, hs₀, hcont⟩
    · rintro ⟨s₀, hs₀, hfind⟩
      exact ⟨{ s₀ with Container := containers.find? (serviceMatch s₀) },
        List.mem_map_of_mem _ hs₀, by simpa using hfind⟩
  have hstand_iff : c ∈ obtainStandaloneContainers containers services ↔
      standaloneKeep services c = true := by
    unfold obtainStandaloneContainers
    rw [List.mem_filter]
    exact ⟨fun h => h.2, fun h => ⟨hc, h⟩⟩
  constructor
  · rintro ⟨hassigned, hstand⟩
    obtain ⟨s, hs, hfind⟩ := hassigned_iff.mp hassigned
    have hmatch := List.find?_some hfind
    rw [hstand_iff] at hstand
    unfold standaloneKeep at hstand
    rw [Bool.not_eq_eq_eq_not, Bool.not_true, List.any_eq_false] at hstand
    have hfail := hstand s hs
    have hOne : c.OneOff = false := by
      rcases Bool.and_eq_true .. |>.mp hmatch with ⟨h1, _⟩
      simpa using h1
    have hSvc : c.ServiceName = s.Name := by
      rcases Bool.and_eq_true .. |>.mp hmatch with ⟨_, h2⟩
      simpa using h2
    have hSN : c.ServiceName ≠ "" := hSvc ▸ hname s hs
    simp [hOne, hSvc, hSN] at hfail
    exact absurd hfail (hname s hs)
  · by_cases hstand : c ∈ obtainStandaloneContainers containers services
    · exact Or.inr hstand
    · refine Or.inl (hassigned_iff.mpr ?_)
      rw [hstand_iff, Bool.not_eq_true] at hstand
      unfold standaloneKeep at hstand
      rw [Bool.not_eq_eq_eq_not, Bool.not_false, List.any_eq_true] at hstand
      obtain ⟨s, hs, hmatch⟩ := hstand
      have hpred : serviceMatch s c = true := by
        rcases Bool.and_eq_true .. |>.mp hmatch with ⟨h1, h2⟩
        rcases Bool.and_eq_true .. |>.mp h1 with ⟨h1a, _⟩
        simp [serviceMatch, h1a, h2]
      have hsome : (containers.find? (serviceMatch s)).isSome := by
        rw [List.find?_isSome]
        exact ⟨c, hc, hpred⟩
      obtain ⟨c', hc'⟩ := Option.isSome_iff_exists.mp hsome
      have hc'mem : c' ∈ containers := List.mem_of_find?_eq_some hc'
      have hc'pred : serviceMatch s c' = true := List.find?_some hc'
      have : c = c' :=
        eq_of_mem_of_length_le_one (huniq s hs)
          (List.mem_filter.mpr ⟨hc, hpred⟩) (List.mem_filter.mpr ⟨hc'mem, hc'pred⟩)
      exact ⟨s, hs, this ▸ hc'⟩

theorem assigned_standalone_partition_witness :
    (¬ (isAssigned [containerWeb] [serviceWeb] containerWeb ∧
        containerWeb ∈ obtainStandaloneContainers [containerWeb] [serviceWeb])) ∧
    (isAssigned [containerWeb] [serviceWeb] containerWeb ∨
        containerWeb ∈ obtainStandaloneContainers [containerWeb] [serviceWeb]) :=
  assigned_standalone_partition [containerWeb] [serviceWeb]
    (by decide) (by decide) containerWeb (by decide)

/-! ### C5: discovery unavailable vs discovery failing -/

/-- Claim C5 as stated is false: with `currentServices = none`, in a
compose project, a failing discovery command makes
`RefreshContainersAndServices` return that error instead of proceeding
with an empty service set (`GetServices` propagates the command error,
and the refresh aborts on it). -/
theorem refresh_discovery_error_propagates :
    refreshContainersAndServices [] (Except.ok []) none true (Except.error "boom")
        false false true [] = RefreshResult.err "boom" := by
  rfl

/-- Claim C5, amended: only discovery being *unavailable* (not in a
compose project) is treated as zero services — the refresh then returns
successfully with an empty service list; a discovery command *failure*
is returned as an error by the refresh. -/
theorem refresh_discovery_unavailable_empty_services
    (existing : List Container) (fetched : List ContainerSummary)
    (cmdResult : Except String (List String)) (showAll legacy showExited : Bool)
    (ignore : List String) :
    (∃ display containers,
        refreshContainersAndServices existing (Except.ok fetched) none false cmdResult
          showAll legacy showExited ignore = RefreshResult.ok display [] containers) ∧
    (∀ e, refreshContainersAndServices existing (Except.ok fetched) none true
        (Except.error e) showAll legacy showExited ignore = RefreshResult.err e) := by
  exact ⟨⟨_, _, rfl⟩, fun e => rfl⟩

theorem refresh_discovery_unavailable_witness :
    refreshContainersAndServices [] (Except.ok []) none true (Except.error "oops")
        false false true [] = RefreshResult.err "oops" :=
  (refresh_discovery_unavailable_empty_services [] [] (Except.ok []) false false true []).2
    "oops"

/-! ### C6: the sort order of the display pipeline -/

theorem containerLE_spec {a b : Container} (h : containerLE a b = true) :
    stateRank a.State < stateRank b.State ∨
      (stateRank a.State = stateRank b.State ∧ a.Name ≤ b.Name) := by
  unfold containerLE at h
  by_cases h1 : stateRank a.State = stateRank b.State
  · rw [if_pos h1] at h
    rw [Bool.not_eq_eq_eq_not, Bool.not_true, decide_eq_false_iff_not] at h
    exact Or.inr ⟨h1, not_lt.mp h⟩
  · rw [if_neg h1, decide_eq_true_iff] at h
    exact Or.inl h

theorem containerLE_trans : ∀ a b c : Container,
    containerLE a b = true → containerLE b c = true → containerLE a c = true := by
  intro a b c hab hbc
  unfold containerLE at hab hbc ⊢
  by_cases h1 : stateRank a.State = stateRank b.State <;>
    by_cases h2 : stateRank b.State = stateRank c.State
  · rw [if_pos h1] at hab
    rw [if_pos h2] at hbc
    rw [if_pos (h1.trans h2)]
    rw [Bool.not_eq_eq_eq_not, Bool.not_true, decide_eq_false_iff_not] at hab hbc
    rw [Bool.not_eq_eq_eq_not, Bool.not_true, decide_eq_false_iff_not]
    exact not_lt.mpr (le_trans (not_lt.mp hab) (not_lt.mp hbc))
  · rw [if_pos h1] at hab
    rw [if_neg h2, decide_eq_true_iff] at hbc
    have hne : stateRank a.State ≠ stateRank c.State := by omega
    rw [if_neg hne, decide_eq_true_iff]
    omega
  · rw [if_neg h1, decide_eq_true_iff] at hab
    rw [if_pos h2] at hbc
    have hne : stateRank a.State ≠ stateRank c.State := by omega
    rw [if_neg hne, decide_eq_true_iff]
    omega
  · rw [if_neg h1, decide_eq_true_iff] at hab
    rw [if_neg h2, decide_eq_true_iff] at hbc
    have hne : stateRank a.State ≠ stateRank c.State := by omega
    rw [if_neg hne, decide_eq_true_iff]
    omega

theorem containerLE_total : ∀ a b : Container,
    containerLE a b || containerLE b a := by
  intro a b
  unfold containerLE
  by_cases h1 : stateRank a.State = stateRank b.State
  · rw [if_pos h1, if_pos h1.symm]
    rcases le_total a.Name b.Name with h | h
    · simp [not_lt.mpr h]
    · simp [not_lt.mpr h]
  · rw [if_neg h1, if_neg (fun hcontra => h1 hcontra.symm)]
    rcases Nat.lt_or_ge (stateRank a.State) (stateRank b.State) with h | h
    · simp [h]
    · simp [Nat.lt_of_le_of_ne h (fun hcontra => h1 hcontra.symm)]

/-- Claim C6: in legacy mode `sortedContainers` returns its input
unchanged; otherwise the result is a permutation of the input that is
pairwise ordered by state rank ascending (`running` = 1, `exited` = 2,
`created` = 3, any other state ranked 0 and hence first) with ties
broken by display name ascending — so running-state containers precede
exited-state ones, which precede created-state ones, and within one rank
names ascend. -/
theorem sortedContainers_order (containers : List Container) :
    sortedContainers true containers = containers ∧
    (sortedContainers false containers).Perm containers ∧
    List.Pairwise
      (fun a b => stateRank a.State < stateRank b.State ∨
        (stateRank a.State = stateRank b.State ∧ a.Name ≤ b.Name))
      (sortedContainers false containers) := by
  refine ⟨rfl, ?_, ?_⟩
  · simpa [sortedContainers] using List.mergeSort_perm containers containerLE
  · have hs := List.sorted_mergeSort containerLE_trans containerLE_total containers
    have : sortedContainers false containers = containers.mergeSort containerLE := rfl
    rw [this]
    exact hs.imp (fun h => containerLE_spec h)

theorem sortedContainers_order_witness :
    sortedContainers true [containerWeb] = [containerWeb] :=
  (sortedContainers_order [containerWeb]).1

/-! ### C7: stats monitor lifecycle of the `MonitoringStats` flag -/

/-- Claim C7: a stats monitor's very first action sets the flag true and
only then performs the stream-open call; whatever follows (an open
failure, or any number of scanned samples followed by stream
termination), the trace's one later flag write is the final `false`, and
the container's final `MonitoringStats` is `false` — so an exited
monitor always leaves the flag clear for the scheduler to re-spawn. -/
theorem createClientStatMonitor_lifecycle
    (openResult : Option (List RecordedStats)) (c : Container) :
    ((createClientStatMonitor openResult c).1).MonitoringStats = false ∧
    ∃ middle,
      (createClientStatMonitor openResult c).2 =
        MonitorEvent.setFlag true :: MonitorEvent.openStream ::
          (middle ++ [MonitorEvent.setFlag false]) ∧
      ∀ e ∈ middle, e = MonitorEvent.readSample := by
  cases openResult with
  | none => exact ⟨rfl, [], rfl, by simp⟩
  | some samples =>
    refine ⟨rfl, samples.map (fun _ => MonitorEvent.readSample),
      by simp [createClientStatMonitor], ?_⟩
    intro e he
    rw [List.mem_map] at he
    obtain ⟨x, _, hx⟩ := he
    exact hx.symm

theorem createClientStatMonitor_lifecycle_witness :
    ((createClientStatMonitor (some [sampleStat]) containerX).1).MonitoringStats = false :=
  (createClientStatMonitor_lifecycle (some [sampleStat]) containerX).1

/-! ### C8: filter algebra -/

/-- Claim C8: the ignore filter is idempotent (a second application
changes nothing), and with show-exited mode on, the exited filter is the
identity transform. -/
theorem filter_pipeline_algebra (ignore : List String) (containers : List Container) :
    filterOutIgnoredContainers ignore (filterOutIgnoredContainers ignore containers) =
        filterOutIgnoredContainers ignore containers ∧
    filterOutExited true containers = containers := by
  refine ⟨?_, rfl⟩
  unfold filterOutIgnoredContainers
  rw [List.filter_filter]
  exact List.filter_congr (fun c _ => Bool.and_self _)

theorem filter_pipeline_algebra_witness :
    filterOutExited true [containerX] = [containerX] :=
  (filter_pipeline_algebra [] [containerX]).2

/-! ### C9: the sort stage is not pure — it sorts the input in place -/

def containerExitedB : Container :=
  { ID := "3", Name := "b", ServiceName := "", ProjectName := "", ContainerNumber := ""
    OneOff := false, Summary := { ID := "3", Labels := [], Names := ["/b"], State := "exited" }
    MonitoringStats := false, StatsHistory := [] }

/-- Claim C9 as stated is false for the sort stage: `sort.Slice` permutes
the caller's slice through the shared backing array, so after a
non-legacy sort of `[exited b, running a]` the input slice holds
`[running a, exited b]` — its relative order was mutated. -/
theorem sort_stage_mutates_input :
    (sortedContainersEffect false [containerExitedB, containerWeb]).2 ≠
      [containerExitedB, containerWeb] := by
  intro hcontra
  have hpair :=
    List.sorted_mergeSort containerLE_trans containerLE_total
      [containerExitedB, containerWeb]
  have h2 : (sortedContainersEffect false [containerExitedB, containerWeb]).2
      = List.mergeSort [containerExitedB, containerWeb] containerLE := rfl
  rw [h2] at hcontra
  rw [hcontra] at hpair
  have hle : containerLE containerExitedB containerWeb = true :=
    (List.pairwise_cons.mp hpair).1 containerWeb (List.mem_singleton_self _)
  exact absurd hle (by decide)

/-- Claim C9, amended: the two filter stages leave their input list
unchanged, and so does the sort stage in legacy mode; the non-legacy
sort stage instead leaves the input slice holding exactly the returned
sorted order — a permutation of the original elements (nothing added or
dropped), but not, in general, the original order. -/
theorem pipeline_stage_frames (showExited legacy : Bool) (ignore : List String)
    (containers : List Container) :
    (filterOutExitedEffect showExited containers).2 = containers ∧
    (filterOutIgnoredEffect ignore containers).2 = containers ∧
    (sortedContainersEffect true containers).2 = containers ∧
    (sortedContainersEffect legacy containers).2 = sortedContainers legacy containers ∧
    ((sortedContainersEffect false containers).2).Perm containers := by
  refine ⟨rfl, rfl, rfl, rfl, ?_⟩
  simpa [sortedContainersEffect, sortedContainers] using
    List.mergeSort_perm containers containerLE

theorem pipeline_stage_frames_witness :
    (filterOutExitedEffect true [containerX]).2 = [containerX] :=
  (pipeline_stage_frames true false [] [containerX]).1

/-! ### C10: service-line parsing is partial -/

theorem length_splitSpaces (cs : List Char) :
    (splitSpaces cs).length = cs.count ' ' + 1 := by
  induction cs with
  | nil => simp [splitSpaces]
  | cons ch rest ih =>
    by_cases hch : ch = ' '
    · subst hch
      simp [splitSpaces, ih, List.count_cons]
    · rw [splitSpaces, if_neg hch]
      cases hs : splitSpaces rest with
      | nil => rw [hs] at ih; simp at ih
      | cons w ws =>
        rw [hs] at ih
        simp only [List.length_cons] at ih ⊢
        rw [List.count_cons, if_neg (by simpa using hch)]
        omega

theorem parseServiceLine_isSome (line : String) :
    (parseServiceLine line).isSome = true ↔ ' ' ∈ line.toList := by
  have h := length_splitSpaces line.toList
  unfold parseServiceLine
  by_cases h2 : 2 ≤ (splitSpaces line.toList).length
  · rw [dif_pos h2]
    simp only [Option.isSome_some, true_iff]
    exact List.count_pos_iff.mp (by omega)
  · rw [dif_neg h2]
    simp only [Option.isSome_none, Bool.false_eq_true, false_iff]
    exact List.count_eq_zero.mp (by omega)

theorem getServicesParse_isSome (lines : List String) :
    (getServicesParse lines).isSome = true ↔ ∀ line ∈ lines, ' ' ∈ line.toList := by
  induction lines with
  | nil => simp [getServicesParse]
  | cons line rest ih =>
    rw [getServicesParse]
    cases hp : parseServiceLine line with
    | none =>
      have hline := parseServiceLine_isSome line
      rw [hp] at hline
      simp only [Option.isSome_none, Bool.false_eq_true, false_iff] at hline
      simp only [Option.isSome_none, Bool.false_eq_true, false_iff]
      exact fun hall => hline (hall line (List.mem_cons_self line rest))
    | some s =>
      have hline := parseServiceLine_isSome line
      rw [hp] at hline
      simp only [Option.isSome_some, true_iff] at hline
      cases hq : getServicesParse rest with
      | none =>
        rw [hq] at ih
        simp only [Option.isSome_none, Bool.false_eq_true, false_iff] at ih
        simp only [Option.isSome_none, Bool.false_eq_true, false_iff]
        exact fun hall => ih (fun l hl => hall l (List.mem_cons_of_mem line hl))
      | some ss =>
        rw [hq] at ih
        simp only [Option.isSome_some, true_iff] at ih
        simp only [Option.isSome_some, true_iff]
        intro l hl
        rcases List.mem_cons.mp hl with rfl | hl
        · exact hline
        · exact ih l hl

/-- Claim C10: the `GetServices` parsing is partial — each line is split
on single spaces and fields 0 and 1 are indexed unconditionally, so the
parse succeeds exactly when every line contains at least one space, and
in a compose project a successfully run command whose output has a
space-free line crashes the call (the model's `crash` outcome). -/
theorem getServices_parse_totality (lines : List String) :
    ((getServicesParse lines).isSome = true ↔ ∀ line ∈ lines, ' ' ∈ line.toList) ∧
    (getServices true (Except.ok lines) = ServicesResult.crash ↔
      ¬ ∀ line ∈ lines, ' ' ∈ line.toList) := by
  refine ⟨getServicesParse_isSome lines, ?_⟩
  rw [← getServicesParse_isSome lines]
  cases hq : getServicesParse lines with
  | none => simp [getServices, hq]
  | some ss => simp [getServices, hq]

theorem getServices_parse_totality_witness :
    (getServicesParse ["web abc"]).isSome = true :=
  (getServices_parse_totality ["web abc"]).1.mpr (by decide)

end LazyDocker
